import Mathlib

/-!
Shallow embedding of the TATOR data-download notebook
(Notebooks/Downloading_Data_TATOR_API.ipynb).

The notebook is a linear pipeline: fetch media, collect localizations
from tracks and standalone lists (cell 18), download the referenced
frames (download_image, cell 5), convert normalized boxes to pixel
boxes, group records per frame and emit one Pascal-VOC XML file per
frame (cell 23).  Python floats are modelled as rationals, Python int()
as truncation toward zero, dicts keyed by int as association lists
where the most recent assignment is consed in front, and filesystem
effects as an explicit list of existing paths.
-/

namespace Tator

/-- Python int() applied to a rational: truncation toward zero. -/
def pyInt (q : ℚ) : ℤ := if 0 ≤ q then ⌊q⌋ else ⌈q⌉

/-- A TATOR localization as used by the notebook: id, frame index,
normalized box fields x, y, width, height, and the attribute dict. -/
structure Localization where
  id : ℕ
  frame : ℕ
  x : ℚ
  y : ℚ
  width : ℚ
  height : ℚ
  attributes : List (String × String)
  deriving DecidableEq, Repr

/-- A TATOR track (state), consumed only for its embedded localizations. -/
structure Track where
  localizations : List Localization
  deriving DecidableEq, Repr

/-- A media item: name and id plus pixel dimensions. -/
structure MediaInfo where
  name : String
  id : ℕ
  width : ℤ
  height : ℤ
  deriving DecidableEq, Repr

/-- An absolute pixel bounding box in xyxy format. -/
structure BBox where
  xmin : ℤ
  ymin : ℤ
  xmax : ℤ
  ymax : ℤ
  deriving DecidableEq, Repr, Inhabited

/-- Cell 23: conversion of a normalized box to absolute pixels,
    xmin = int(x * media_width), ymin = int(y * media_height),
    xmax = int(width * media_width) + xmin,
    ymax = int(height * media_height) + ymin. -/
def convertBBox (x y w h : ℚ) (W H : ℤ) : BBox :=
  let xmin := pyInt (x * (W : ℚ))
  let ymin := pyInt (y * (H : ℚ))
  let xmax := pyInt (w * (W : ℚ)) + xmin
  let ymax := pyInt (h * (H : ℚ)) + ymin
  { xmin := xmin, ymin := ymin, xmax := xmax, ymax := ymax }

/-- Python media_name.split(".")[0]: the characters before the first dot. -/
def splitDotHead (s : String) : String := ⟨s.data.takeWhile (· ≠ '.')⟩

/-- Python media.name.replace(":", "_") (single-character replacement). -/
def colonToUnderscore (s : String) : String :=
  ⟨s.data.map (fun c => if c = ':' then '_' else c)⟩

/-- Destination path computed by download_image (cell 5) and again as
frame_path in cell 23:
media_dir + media_name.split(".")[0] + "_" + str(frame) + ".jpg". -/
def framePath (media_dir media_name : String) (frame : ℕ) : String :=
  media_dir ++ splitDotHead media_name ++ "_" ++ Nat.repr frame ++ ".jpg"

/-- Cell 5, download_image: compute the destination path; if the flag is
set and the file does not exist, fetch the frame and move it to dst;
always return dst.  The filesystem is the list of existing paths; the
returned Bool records whether a fetch happened. -/
def download_image (frame : ℕ) (media_name media_dir : String)
    (media_id : ℕ) (fs : List String) (download : Bool) :
    String × List String × Bool :=
  let _ := media_id
  let dst := media_dir ++ splitDotHead media_name ++ "_" ++ Nat.repr frame ++ ".jpg"
  if ¬ dst ∈ fs ∧ download = true then (dst, dst :: fs, true)
  else (dst, fs, false)

/-- Test whether a key is present in a localization's attribute dict
(Python: key in localization.attributes). -/
def hasKey (k : String) (l : Localization) : Bool :=
  (l.attributes.lookup k).isSome

/-- Value read by both collector branches:
localization.attributes['ScientificName'] (defaulted, for use in closed
forms; the branches themselves fail on a missing key, see keepLoc). -/
def classOf (l : Localization) : String :=
  (l.attributes.lookup "ScientificName").getD "Unknown"

/-- Accumulator of the cell-18 per-media loop: the loc_id_to_class dict
(most recent assignment first), the media_localizations list and the
slice of ALL_CLASSES_LIST contributed by this media. -/
structure CollectSt where
  loc_id_to_class : List (ℕ × String)
  media_localizations : List Localization
  all_classes : List String
  deriving DecidableEq, Repr

/-- One iteration of a cell-18 collection loop: if the filter key is in
the attribute dict, read attributes['ScientificName'] (raising a KeyError,
modelled as .error, when absent), record it in loc_id_to_class, append the
localization and the class label.  The track branch passes the misspelled
filter key "ScientifcName"; the standalone branch passes "ScientificName". -/
def keepLoc (filterKey : String) (st : CollectSt) (l : Localization) :
    Except Unit CollectSt :=
  if hasKey filterKey l then
    match l.attributes.lookup "ScientificName" with
    | some c => .ok { loc_id_to_class := (l.id, c) :: st.loc_id_to_class,
                      media_localizations := st.media_localizations ++ [l],
                      all_classes := st.all_classes ++ [c] }
    | none => .error ()
  else .ok st

/-- Run one collection loop over a list of localizations. -/
def foldLocsE (filterKey : String) (st : CollectSt) :
    List Localization → Except Unit CollectSt
  | [] => .ok st
  | l :: ls =>
    match keepLoc filterKey st l with
    | .ok st' => foldLocsE filterKey st' ls
    | .error e => .error e

/-- Cell 18, body of the per-media loop: first the nested loop over the
track localizations (filtering on the misspelled key "ScientifcName"),
then the loop over the standalone localizations (filtering on
"ScientificName"). -/
def collectMedia (tracks : List Track) (localizations : List Localization) :
    Except Unit CollectSt :=
  match foldLocsE "ScientifcName" ⟨[], [], []⟩
      (tracks.flatMap (·.localizations)) with
  | .ok st => foldLocsE "ScientificName" st localizations
  | .error e => .error e

/-- Collector that claim C2 describes, written from the spec's words:
keep exactly the localizations (track-embedded or standalone) that
expose the class-category attribute "ScientificName". -/
def collectMediaSpec (tracks : List Track)
    (localizations : List Localization) : List Localization :=
  (tracks.flatMap (·.localizations) ++ localizations).filter
    (hasKey "ScientificName")

/-- Track localizations the cell-18 track branch keeps: those exposing
the misspelled key "ScientifcName". -/
def trackKept (tracks : List Track) : List Localization :=
  (tracks.flatMap (·.localizations)).filter (hasKey "ScientifcName")

/-- Standalone localizations the cell-18 standalone branch keeps: those
exposing "ScientificName". -/
def standaloneKept (localizations : List Localization) : List Localization :=
  localizations.filter (hasKey "ScientificName")

/-- The loc_id_to_class entry written for a kept localization. -/
def classEntry (l : Localization) : ℕ × String := (l.id, classOf l)

/-- Cell 7 constants: root data folder and its two sub-folders. -/
def ROOT : String := "./Data/"

/-- Cell 7: IMAGE_DIR = ROOT + "JPEGImages/". -/
def IMAGE_DIR : String := ROOT ++ "JPEGImages/"

/-- Cell 7: LABEL_DIR = ROOT + "Annotations/". -/
def LABEL_DIR : String := ROOT ++ "Annotations/"

/-- Cell 15: console report for one requested media name. -/
def mediaFoundMessage (medias_names : List String) (media : String) : String :=
  if media ∈ medias_names then "This media WAS found: " ++ media
  else "This media WASN\x27T found: " ++ media

/-- The per-localization record built in cell 23: frame index, pixel
bbox, destination image path and class label. -/
structure LocRecord where
  frame : ℕ
  bbox : BBox
  path : String
  class_category : String
  deriving DecidableEq, Repr, Inhabited

/-- Cell 23, body of the localization loop: the record for one
localization; the class label falls back to "Unknown" when
loc_id_to_class has no entry for the localization's id (try/except). -/
def reshapeLoc (image_dir media_name : String) (W H : ℤ)
    (loc_id_to_class : List (ℕ × String)) (l : Localization) : LocRecord :=
  { frame := l.frame,
    bbox := convertBBox l.x l.y l.width l.height W H,
    path := framePath image_dir media_name l.frame,
    class_category := (loc_id_to_class.lookup l.id).getD "Unknown" }

/-- Cell 23: frames_w_localizations = list(set([l.frame for l in
localizations])); the distinct referenced frames (order immaterial). -/
def framesWithLocalizations (locs : List Localization) : List ℕ :=
  (locs.map (·.frame)).dedup

/-- Cell 23, one step of building frame_localizations: append the entry
to its frame's bucket, or start a new bucket for an unseen frame. -/
def addToGroups (gs : List (ℕ × List LocRecord)) (r : LocRecord) :
    List (ℕ × List LocRecord) :=
  if (gs.lookup r.frame).isSome then
    gs.map (fun g => if g.1 = r.frame then (g.1, g.2 ++ [r]) else g)
  else gs ++ [(r.frame, [r])]

/-- Cell 23: the frame_localizations dict, as an association list in key
insertion order. -/
def groupByFrame (rs : List LocRecord) : List (ℕ × List LocRecord) :=
  rs.foldl addToGroups []

/-- Python os.path.basename on a POSIX path: the suffix after the last
slash. -/
def basename (s : String) : String :=
  ⟨(s.data.reverse.takeWhile (· ≠ '/')).reverse⟩

/-- Python str.replace(".jpg", ".xml"): replace every non-overlapping
occurrence of ".jpg", scanning left to right. -/
def replaceJpgXml : List Char → List Char
  | [] => []
  | c :: rest =>
    if (".jpg".data).isPrefixOf (c :: rest) then
      ".xml".data ++ replaceJpgXml (rest.drop 3)
    else c :: replaceJpgXml rest
termination_by s => s.length
decreasing_by all_goals (simp [List.length_drop]; try omega)

/-- String wrapper for replaceJpgXml. -/
def replaceStrJpgXml (s : String) : String := ⟨replaceJpgXml s.data⟩

/-- One emitted Pascal-VOC XML document: where it is saved, the image
path and size recorded in it, and one (name, bndbox) entry per object. -/
structure XMLFile where
  path : String
  img_path : String
  width : ℤ
  height : ℤ
  objects : List (String × BBox)
  deriving DecidableEq, Repr

/-- Cell 23, body of the per-frame export loop: img_path is the path of
the first record of the frame's bucket, the XML path replaces the
extension of its basename, and one object is added per record. -/
def emitFrame (label_dir : String) (W H : ℤ) (group : List LocRecord) :
    XMLFile :=
  let img_path := (group.headD default).path
  { path := label_dir ++ replaceStrJpgXml (basename img_path),
    img_path := img_path,
    width := W, height := H,
    objects := group.map (fun r => (r.class_category, r.bbox)) }

/-- Cell 23: all XML files emitted for one media, one per element of
frames_w_localizations. -/
def mediaXMLs (image_dir label_dir media_name : String) (W H : ℤ)
    (loc_id_to_class : List (ℕ × String)) (locs : List Localization) :
    List XMLFile :=
  let rs := locs.map (reshapeLoc image_dir media_name W H loc_id_to_class)
  let groups := groupByFrame rs
  (framesWithLocalizations locs).map
    (fun f => emitFrame label_dir W H ((groups.lookup f).getD []))

/-- The XML file the cell-23 export loop writes for one frame of one
media: emitFrame applied to the frame's bucket of frame_localizations. -/
def xmlForFrame (image_dir label_dir media_name : String) (W H : ℤ)
    (loc_id_to_class : List (ℕ × String)) (locs : List Localization)
    (f : ℕ) : XMLFile :=
  emitFrame label_dir W H
    (((groupByFrame
        (locs.map (reshapeLoc image_dir media_name W H loc_id_to_class))).lookup
      f).getD [])

/-- Cell 23: the download of all referenced frames of one media
(modelled sequentially; the thread-pool tasks are independent and write
distinct files).  Returns (returned paths, final filesystem, created
files). -/
def downloadFrames (media_name media_dir : String) (media_id : ℕ)
    (frames : List ℕ) (fs : List String) (download : Bool) :
    List String × List String × List String :=
  match frames with
  | [] => ([], fs, [])
  | f :: rest =>
    let r := download_image f media_name media_dir media_id fs download
    let rest' := downloadFrames media_name media_dir media_id rest r.2.1 download
    (r.1 :: rest'.1, rest'.2.1, (if r.2.2 then [r.1] else []) ++ rest'.2.2)

/-- The tuple cell 18 appends to media_w_localizations:
[media.name.replace(":", "_"), media.id, media.width, media.height,
media_localizations, loc_id_to_class]. -/
structure MediaEntry where
  name : String
  id : ℕ
  width : ℤ
  height : ℤ
  localizations : List Localization
  loc_id_to_class : List (ℕ × String)
  deriving DecidableEq, Repr

/-- Packaging of one collected media into its media_w_localizations row. -/
def mkEntry (m : MediaInfo) (st : CollectSt) : MediaEntry :=
  ⟨colonToUnderscore m.name, m.id, m.width, m.height,
    st.media_localizations, st.loc_id_to_class⟩

/-- Cell 18, outer loop: walk all project media, skip those whose name
is not in MEDIA_LIST, collect the rest; a KeyError anywhere aborts. -/
def collectAll (media_list : List String) (tracksOf : ℕ → List Track)
    (locsOf : ℕ → List Localization) :
    List MediaInfo → Except Unit (List MediaEntry)
  | [] => .ok []
  | m :: ms =>
    if m.name ∈ media_list then
      match collectMedia (tracksOf m.id) (locsOf m.id) with
      | .ok st =>
        (collectAll media_list tracksOf locsOf ms).map
          (fun es => mkEntry m st :: es)
      | .error e => .error e
    else collectAll media_list tracksOf locsOf ms

/-- Cell 23, body of the outer loop for one media_w_localizations row:
download the referenced frames, then emit the XML files.  Returns
(final filesystem, created image files, emitted XML files). -/
def runMedia (image_dir label_dir : String) (e : MediaEntry)
    (fs : List String) (download : Bool) :
    List String × List String × List XMLFile :=
  let frames := framesWithLocalizations e.localizations
  let d := downloadFrames e.name image_dir e.id frames fs download
  (d.2.1, d.2.2,
    mediaXMLs image_dir label_dir e.name e.width e.height
      e.loc_id_to_class e.localizations)

/-- Cell 23, outer loop over all media_w_localizations rows. -/
def runAll (image_dir label_dir : String) :
    List MediaEntry → List String → Bool →
    List String × List String × List XMLFile
  | [], fs, _ => (fs, [], [])
  | e :: es, fs, download =>
    let r := runMedia image_dir label_dir e fs download
    let rest := runAll image_dir label_dir es r.1 download
    (rest.1, r.2.1 ++ rest.2.1, r.2.2 ++ rest.2.2)


/-- Sample standalone localization carrying the class attribute. -/
def sampleStandalone : Localization :=
  ⟨1, 7, 0, 0, 0, 0, [("ScientificName", "Fish")]⟩

/-- Sample track localization carrying both the misspelled and the
correctly spelled attribute keys. -/
def sampleTrackLoc : Localization :=
  ⟨2, 3, 0, 0, 0, 0, [("ScientifcName", "x"), ("ScientificName", "Fish")]⟩

/-- The whole notebook run after configuration: cell 18 collection
followed by cell 23 download and export. -/
def pipeline (medias : List MediaInfo) (media_list : List String)
    (tracksOf : ℕ → List Track) (locsOf : ℕ → List Localization)
    (fs : List String) (download : Bool) :
    Except Unit (List String × List String × List XMLFile) :=
  (collectAll media_list tracksOf locsOf medias).map
    (fun es => runAll IMAGE_DIR LABEL_DIR es fs download)

end Tator

namespace Tator

/-- Claim C1: the reshaper computes xmin = int(x·W), ymin = int(y·H),
xmax = int(w·W) + xmin, ymax = int(h·H) + ymin, with no clamping and no
non-degeneracy check (the identities hold for all inputs, in-range or
not), and the side lengths satisfy xmax − xmin = int(w·W) and
ymax − ymin = int(h·H) exactly (integer truncation toward zero). -/
theorem convertBBox_formula (x y w h : ℚ) (W H : ℤ) :
    convertBBox x y w h W H =
      { xmin := pyInt (x * (W : ℚ)), ymin := pyInt (y * (H : ℚ)),
        xmax := pyInt (w * (W : ℚ)) + pyInt (x * (W : ℚ)),
        ymax := pyInt (h * (H : ℚ)) + pyInt (y * (H : ℚ)) } ∧
    (convertBBox x y w h W H).xmax - (convertBBox x y w h W H).xmin
        = pyInt (w * (W : ℚ)) ∧
    (convertBBox x y w h W H).ymax - (convertBBox x y w h W H).ymin
        = pyInt (h * (H : ℚ)) := by
  refine ⟨rfl, ?_, ?_⟩ <;> simp [convertBBox]

/-- Claim C6: download_image always returns the path computed from the media
name and frame index; it fetches exactly when the flag is true and the
destination is absent; and immediately re-invoking it with the flag true
after a flag-true call performs no fetch (idempotent skip). -/
theorem download_image_spec (frame : ℕ) (media_name media_dir : String)
    (media_id : ℕ) (fs : List String) (download : Bool) :
    (download_image frame media_name media_dir media_id fs download).1
        = framePath media_dir media_name frame ∧
    ((download_image frame media_name media_dir media_id fs download).2.2 = true ↔
      (download = true ∧ ¬ framePath media_dir media_name frame ∈ fs)) ∧
    (download_image frame media_name media_dir media_id
        (download_image frame media_name media_dir media_id fs true).2.1
        true).2.2 = false := by
  unfold download_image framePath
  by_cases hmem : media_dir ++ splitDotHead media_name ++ "_" ++ Nat.repr frame ++ ".jpg" ∈ fs <;>
    cases download <;> simp [hmem]

/-- Closed form of one cell-18 collection loop, provided every
localization passing the filter key also carries "ScientificName"
(otherwise the loop raises a KeyError). -/
theorem foldLocsE_closed (key : String) (ls : List Localization) :
    ∀ st : CollectSt,
    (∀ l ∈ ls, hasKey key l = true → hasKey "ScientificName" l = true) →
    foldLocsE key st ls = .ok
      { loc_id_to_class :=
          ((ls.filter (hasKey key)).map classEntry).reverse
            ++ st.loc_id_to_class,
        media_localizations :=
          st.media_localizations ++ ls.filter (hasKey key),
        all_classes :=
          st.all_classes ++ (ls.filter (hasKey key)).map classOf } := by
  induction ls with
  | nil => intro st _; simp [foldLocsE]
  | cons l ls ih =>
    intro st h
    by_cases hk : hasKey key l
    · have hs : hasKey "ScientificName" l = true :=
        h l (List.mem_cons_self _ _) hk
      obtain ⟨c, hc⟩ : ∃ c, l.attributes.lookup "ScientificName" = some c :=
        Option.isSome_iff_exists.mp hs
      have hcl : classOf l = c := by simp [classOf, hc]
      have step : keepLoc key st l = .ok
          { loc_id_to_class := (l.id, c) :: st.loc_id_to_class,
            media_localizations := st.media_localizations ++ [l],
            all_classes := st.all_classes ++ [c] } := by
        simp [keepLoc, hk, hc]
      have hrest : ∀ l' ∈ ls, hasKey key l' = true →
          hasKey "ScientificName" l' = true :=
        fun l' hl' => h l' (List.mem_cons_of_mem _ hl')
      simp only [foldLocsE, step]
      rw [ih _ hrest]
      simp [List.filter_cons, hk, classEntry, hcl, List.append_assoc]
    · have step : keepLoc key st l = .ok st := by simp [keepLoc, hk]
      have hrest : ∀ l' ∈ ls, hasKey key l' = true →
          hasKey "ScientificName" l' = true :=
        fun l' hl' => h l' (List.mem_cons_of_mem _ hl')
      simp only [foldLocsE, step]
      rw [ih _ hrest]
      simp [List.filter_cons, hk]

/-- Membership of a pair makes an association-list lookup succeed. -/
theorem lookup_isSome_of_mem {α β : Type} [BEq α] [LawfulBEq α]
    (xs : List (α × β)) (a : α) (b : β) (h : (a, b) ∈ xs) :
    (xs.lookup a).isSome = true := by
  induction xs with
  | nil => simp at h
  | cons p xs ih =>
    by_cases hae : a == p.1
    · simp [List.lookup, hae]
    · rcases List.mem_cons.mp h with h1 | h1
      · subst h1; simp at hae
      · simp [List.lookup, hae, ih h1]

/-- With pairwise-distinct keys, an association-list lookup returns the
value of the unique matching pair. -/
theorem lookup_eq_of_mem_of_nodup {α β : Type} [BEq α] [LawfulBEq α]
    (xs : List (α × β)) (a : α) (b : β)
    (hnd : (xs.map Prod.fst).Nodup) (h : (a, b) ∈ xs) :
    xs.lookup a = some b := by
  induction xs with
  | nil => simp at h
  | cons p xs ih =>
    simp only [List.map_cons, List.nodup_cons] at hnd
    rcases List.mem_cons.mp h with h1 | h1
    · subst h1; simp [List.lookup]
    · have hne : ¬ a == p.1 := by
        have hmem : a ∈ xs.map Prod.fst :=
          List.mem_map.mpr ⟨(a, b), h1, rfl⟩
        intro hab
        rw [eq_of_beq hab] at hmem
        exact hnd.1 hmem
      simp [List.lookup, hne, ih hnd.2 h1]

/-- Closed form of the whole cell-18 per-media collection, provided no
track localization triggers the KeyError (it has the misspelled filter
key but lacks "ScientificName"). -/
theorem collectMedia_closed (tracks : List Track) (locs : List Localization)
    (h : ∀ l ∈ tracks.flatMap (·.localizations),
      hasKey "ScientifcName" l = true → hasKey "ScientificName" l = true) :
    collectMedia tracks locs = .ok
      { loc_id_to_class :=
          ((trackKept tracks ++ standaloneKept locs).map classEntry).reverse,
        media_localizations := trackKept tracks ++ standaloneKept locs,
        all_classes :=
          (trackKept tracks ++ standaloneKept locs).map classOf } := by
  unfold collectMedia
  rw [foldLocsE_closed _ _ _ h]
  dsimp only
  rw [foldLocsE_closed _ _ _ (fun l _ hk => hk)]
  simp [trackKept, standaloneKept, classEntry]

/-- Claim C2 counterexample: a track-embedded localization exposing the
class-category attribute "ScientificName" (and only it) is dropped by
the collector, because the track branch filters on the misspelled key
"ScientifcName"; so the collector does not keep exactly the
localizations exposing the class-category attribute. -/
theorem collector_track_filter_cex :
    hasKey "ScientificName"
        ⟨1, 0, 0, 0, 0, 0, [("ScientificName", "Fish")]⟩ = true ∧
    (collectMedia [⟨[⟨1, 0, 0, 0, 0, 0, [("ScientificName", "Fish")]⟩]⟩]
          []).map (fun st => st.media_localizations)
      ≠ .ok (collectMediaSpec
          [⟨[⟨1, 0, 0, 0, 0, 0, [("ScientificName", "Fish")]⟩]⟩] []) := by
  refine ⟨rfl, ?_⟩
  intro hcontra
  have h1 : (collectMedia
      [⟨[⟨1, 0, 0, 0, 0, 0, [("ScientificName", "Fish")]⟩]⟩] []).map
        (fun st => st.media_localizations)
      = .ok ([] : List Localization) := rfl
  have h2 : collectMediaSpec
      [⟨[⟨1, 0, 0, 0, 0, 0, [("ScientificName", "Fish")]⟩]⟩] []
      = [⟨1, 0, 0, 0, 0, 0, [("ScientificName", "Fish")]⟩] := rfl
  rw [h1, h2] at hcontra
  simp at hcontra

/-- Claim C2, amended: provided no track localization carries the misspelled
key without "ScientificName" (which would raise a KeyError), the
collector keeps exactly the track localizations exposing the misspelled
key "ScientifcName" followed by the standalone localizations exposing
"ScientificName", merged into one per-media list; the id-to-class
lookup has an entry for every kept localization's id, and when the kept
ids are pairwise distinct it maps each kept localization's id to that
localization's "ScientificName" value. -/
theorem collector_keeps_amended (tracks : List Track)
    (locs : List Localization)
    (h : ∀ l ∈ tracks.flatMap (·.localizations),
      hasKey "ScientifcName" l = true → hasKey "ScientificName" l = true) :
    collectMedia tracks locs = .ok
      { loc_id_to_class :=
          ((trackKept tracks ++ standaloneKept locs).map classEntry).reverse,
        media_localizations := trackKept tracks ++ standaloneKept locs,
        all_classes :=
          (trackKept tracks ++ standaloneKept locs).map classOf } ∧
    (∀ l ∈ trackKept tracks ++ standaloneKept locs,
      ((((trackKept tracks ++ standaloneKept locs).map classEntry).reverse).lookup
          l.id).isSome = true) ∧
    (((trackKept tracks ++ standaloneKept locs).map (·.id)).Nodup →
      ∀ l ∈ trackKept tracks ++ standaloneKept locs,
        (((trackKept tracks ++ standaloneKept locs).map classEntry).reverse).lookup
            l.id = some (classOf l)) := by
  refine ⟨collectMedia_closed tracks locs h, ?_, ?_⟩
  · intro l hl
    exact lookup_isSome_of_mem _ _ (classOf l)
      (List.mem_reverse.mpr (List.mem_map.mpr ⟨l, hl, rfl⟩))
  · intro hnd l hl
    refine lookup_eq_of_mem_of_nodup _ _ _ ?_
      (List.mem_reverse.mpr (List.mem_map.mpr ⟨l, hl, rfl⟩))
    rw [List.map_reverse, List.nodup_reverse, List.map_map]
    exact hnd

/-- Updating the bucket of one frame leaves all lookups intact except
that frame's, whose bucket gains the new record. -/
theorem lookup_map_update (gs : List (ℕ × List LocRecord)) (r : LocRecord)
    (f : ℕ) :
    (gs.map (fun g => if g.1 = r.frame then (g.1, g.2 ++ [r]) else g)).lookup f
      = (gs.lookup f).map (fun xs => if f = r.frame then xs ++ [r] else xs) := by
  induction gs with
  | nil => simp
  | cons g gs ih =>
    obtain ⟨k, v⟩ := g
    rw [List.map_cons]
    by_cases hk : k = r.frame
    · have hhead : (if (k, v).1 = r.frame
            then ((k, v).1, (k, v).2 ++ [r]) else (k, v))
          = (k, v ++ [r]) := by simp [hk]
      rw [hhead]
      by_cases hf : f = k
      · subst hf; subst hk
        simp [List.lookup]
      · have h2 : (f == k) = false := by simp [hf]
        simp [List.lookup, h2, ih]
    · have hhead : (if (k, v).1 = r.frame
            then ((k, v).1, (k, v).2 ++ [r]) else (k, v))
          = (k, v) := by simp [hk]
      rw [hhead]
      by_cases hf : f = k
      · subst hf
        simp [List.lookup, hk]
      · have h2 : (f == k) = false := by simp [hf]
        simp [List.lookup, h2, ih]

/-- Effect of one cell-23 grouping step on a lookup. -/
theorem addToGroups_lookup (gs : List (ℕ × List LocRecord)) (r : LocRecord)
    (f : ℕ) :
    (addToGroups gs r).lookup f =
      if f = r.frame then some (((gs.lookup f).getD []) ++ [r])
      else gs.lookup f := by
  unfold addToGroups
  by_cases h : (gs.lookup r.frame).isSome
  · rw [if_pos h, lookup_map_update]
    by_cases hf : f = r.frame
    · subst hf
      obtain ⟨xs, hxs⟩ := Option.isSome_iff_exists.mp h
      simp [hxs]
    · simp only [if_neg hf]
      cases gs.lookup f <;> simp [hf]
  · rw [if_neg h]
    have hnone : gs.lookup r.frame = none :=
      Option.not_isSome_iff_eq_none.mp h
    by_cases hf : f = r.frame
    · subst hf
      rw [List.lookup_append, hnone]
      simp [List.lookup]
    · rw [List.lookup_append]
      cases hg : gs.lookup f
      · have h2 : (f == r.frame) = false := by simp [hf]
        simp [List.lookup, h2, hf]
      · simp [hf]

/-- Closed form of the frame_localizations dict built by the cell-23
fold, for an arbitrary starting dict. -/
theorem groupByFrame_go (rs : List LocRecord) :
    ∀ gs : List (ℕ × List LocRecord), ∀ f : ℕ,
    (rs.foldl addToGroups gs).lookup f =
      match gs.lookup f with
      | some xs => some (xs ++ rs.filter (fun r => r.frame == f))
      | none =>
        if rs.any (fun r => r.frame == f) then
          some (rs.filter (fun r => r.frame == f))
        else none := by
  induction rs with
  | nil => intro gs f; cases h : gs.lookup f <;> simp [h]
  | cons r rs ih =>
    intro gs f
    rw [List.foldl_cons, ih, addToGroups_lookup]
    by_cases hf : f = r.frame
    · subst hf
      have hfr : (r.frame == r.frame) = true := by simp
      cases hg : gs.lookup r.frame <;>
        simp [hg, List.filter_cons, List.any_cons, hfr, List.append_assoc]
    · have hfr : (r.frame == f) = false := by simp [Ne.symm hf]
      rw [if_neg hf]
      cases hg : gs.lookup f <;>
        simp [hg, List.filter_cons, List.any_cons, hfr]

/-- For a referenced frame, the frame_localizations bucket holds exactly
the records of that frame, in order. -/
theorem groupByFrame_lookup (rs : List LocRecord) (f : ℕ)
    (h : rs.any (fun r => r.frame == f) = true) :
    (groupByFrame rs).lookup f = some (rs.filter (fun r => r.frame == f)) := by
  unfold groupByFrame
  rw [groupByFrame_go]
  simp [List.lookup, h]

/-- Mapping cannot decrease the number of copies of an element. -/
theorem count_le_count_map {α β : Type} [BEq α] [LawfulBEq α]
    [BEq β] [LawfulBEq β] (f : α → β) (xs : List α) (a : α) :
    xs.count a ≤ (xs.map f).count (f a) := by
  induction xs with
  | nil => simp
  | cons x xs ih =>
    by_cases h : a = x
    · subst h
      simp only [List.map_cons, List.count_cons, beq_self_eq_true, if_pos]
      omega
    · have h1 : (x == a) = false := by simp [Ne.symm h]
      simp only [List.map_cons, List.count_cons, h1, Bool.false_eq_true,
        if_false]
      split <;> omega

/-- The objects of the XML emitted for a referenced frame are exactly
the per-localization records of that frame, in order: the looked-up
class label (default "Unknown") paired with the converted pixel box. -/
theorem xmlForFrame_objects (image_dir label_dir media_name : String)
    (W H : ℤ) (d : List (ℕ × String)) (locs : List Localization) (f : ℕ)
    (hf : f ∈ locs.map (fun l => l.frame)) :
    (xmlForFrame image_dir label_dir media_name W H d locs f).objects
      = (locs.filter (fun l => l.frame == f)).map
          (fun l => ((d.lookup l.id).getD "Unknown",
            convertBBox l.x l.y l.width l.height W H)) := by
  have hany : (locs.map (reshapeLoc image_dir media_name W H d)).any
      (fun r => r.frame == f) = true := by
    obtain ⟨l, hl, hfr⟩ := List.mem_map.mp hf
    refine List.any_eq_true.mpr
      ⟨reshapeLoc image_dir media_name W H d l, List.mem_map.mpr ⟨l, hl, rfl⟩, ?_⟩
    simp [reshapeLoc, hfr]
  unfold xmlForFrame
  rw [groupByFrame_lookup _ _ hany]
  simp only [Option.getD_some]
  unfold emitFrame
  dsimp only
  rw [List.filter_map, List.map_map]
  rfl

/-- Claim C5: for each frame referenced by at least one kept localization of a
media, the export loop runs exactly once (the frame occurs exactly once
in frames_w_localizations), emitting the frame's XML file, and that
file's objects are exactly the records of the localizations whose frame
index equals that frame, one object entry per localization. -/
theorem one_xml_per_frame (image_dir label_dir media_name : String)
    (W H : ℤ) (d : List (ℕ × String)) (locs : List Localization) (f : ℕ)
    (hf : f ∈ locs.map (fun l => l.frame)) :
    (framesWithLocalizations locs).count f = 1 ∧
    mediaXMLs image_dir label_dir media_name W H d locs
      = (framesWithLocalizations locs).map
          (xmlForFrame image_dir label_dir media_name W H d locs) ∧
    (xmlForFrame image_dir label_dir media_name W H d locs f).objects
      = (locs.filter (fun l => l.frame == f)).map
          (fun l => ((d.lookup l.id).getD "Unknown",
            convertBBox l.x l.y l.width l.height W H)) := by
  refine ⟨?_, rfl, xmlForFrame_objects _ _ _ _ _ _ _ _ hf⟩
  exact List.count_eq_one_of_mem (List.nodup_dedup _) (List.mem_dedup.mpr hf)

/-- Claim C3: a localization whose id has no entry in loc_id_to_class gets
class label "Unknown" in its record, and the XML emitted for its frame
contains the object entry ("Unknown", converted box). -/
theorem missing_class_defaults_unknown (image_dir label_dir media_name :
    String) (W H : ℤ) (d : List (ℕ × String)) (locs : List Localization)
    (l : Localization) (hl : l ∈ locs) (hmiss : d.lookup l.id = none) :
    (reshapeLoc image_dir media_name W H d l).class_category = "Unknown" ∧
    ("Unknown", convertBBox l.x l.y l.width l.height W H) ∈
      (xmlForFrame image_dir label_dir media_name W H d locs
        l.frame).objects := by
  constructor
  · simp [reshapeLoc, hmiss]
  · have hf : l.frame ∈ locs.map (fun l => l.frame) :=
      List.mem_map.mpr ⟨l, hl, rfl⟩
    rw [xmlForFrame_objects _ _ _ _ _ _ _ _ hf]
    refine List.mem_map.mpr ⟨l, List.mem_filter.mpr ⟨hl, by simp⟩, ?_⟩
    rw [hmiss]
    rfl

/-- Claim C10: a localization kept by the standalone branch always has an
entry in loc_id_to_class under its id, so the try/except fallback to
"Unknown" in the cell-23 reshaper cannot fire for it: its record's class
label is the looked-up value. -/
theorem standalone_no_unknown_fallback (tracks : List Track)
    (locs : List Localization) (st : CollectSt) (l : Localization)
    (hok : collectMedia tracks locs = .ok st)
    (hl : l ∈ locs) (hk : hasKey "ScientificName" l = true) :
    (st.loc_id_to_class.lookup l.id).isSome = true ∧
    ∃ c, st.loc_id_to_class.lookup l.id = some c ∧
      ∀ image_dir media_name W H,
        (reshapeLoc image_dir media_name W H st.loc_id_to_class
          l).class_category = c := by
  have hmem : (l.id, classOf l) ∈ st.loc_id_to_class := by
    unfold collectMedia at hok
    cases hfold : foldLocsE "ScientifcName" ⟨[], [], []⟩
        (tracks.flatMap (·.localizations)) with
    | error e => rw [hfold] at hok; cases hok
    | ok st₁ =>
      rw [hfold] at hok
      dsimp only at hok
      rw [foldLocsE_closed _ _ _ (fun l' _ hk' => hk')] at hok
      have hst := (Except.ok.inj hok).symm
      subst hst
      dsimp only
      refine List.mem_append_left _ ?_
      refine List.mem_reverse.mpr (List.mem_map.mpr ⟨l, ?_, rfl⟩)
      exact List.mem_filter.mpr ⟨hl, hk⟩
  have hsome : (st.loc_id_to_class.lookup l.id).isSome = true :=
    lookup_isSome_of_mem _ _ _ hmem
  obtain ⟨c, hc⟩ := Option.isSome_iff_exists.mp hsome
  exact ⟨hsome, c, hc, fun image_dir media_name W H => by
    simp [reshapeLoc, hc]⟩

/-- Claim C9: a localization delivered both inside a track and in the
standalone list, passing the respective filter of each branch, is
appended twice to media_localizations, and the XML emitted for its frame
contains its object entry (at least) twice, with no deduplication by id. -/
theorem duplicated_track_and_standalone (tracks : List Track)
    (locs : List Localization) (l : Localization)
    (h : ∀ l' ∈ tracks.flatMap (·.localizations),
      hasKey "ScientifcName" l' = true → hasKey "ScientificName" l' = true)
    (h1 : (tracks.flatMap (·.localizations)).count l = 1)
    (h2 : locs.count l = 1)
    (hk1 : hasKey "ScientifcName" l = true)
    (hk2 : hasKey "ScientificName" l = true) :
    ∃ st : CollectSt, collectMedia tracks locs = .ok st ∧
      st.media_localizations.count l = 2 ∧
      ∀ image_dir label_dir media_name W H,
        2 ≤ ((xmlForFrame image_dir label_dir media_name W H
            st.loc_id_to_class st.media_localizations l.frame).objects.count
          ((st.loc_id_to_class.lookup l.id).getD "Unknown",
            convertBBox l.x l.y l.width l.height W H)) := by
  refine ⟨_, collectMedia_closed tracks locs h, ?_, ?_⟩
  · show (trackKept tracks ++ standaloneKept locs).count l = 2
    rw [List.count_append]
    unfold trackKept standaloneKept
    rw [List.count_filter hk1, List.count_filter hk2, h1, h2]
  · intro image_dir label_dir media_name W H
    dsimp only
    have hcnt : (trackKept tracks ++ standaloneKept locs).count l = 2 := by
      rw [List.count_append]
      unfold trackKept standaloneKept
      rw [List.count_filter hk1, List.count_filter hk2, h1, h2]
    have hlk : l ∈ trackKept tracks ++ standaloneKept locs :=
      List.count_pos_iff.mp (by omega)
    have hf : l.frame ∈ (trackKept tracks ++ standaloneKept locs).map
        (fun x => x.frame) := List.mem_map.mpr ⟨l, hlk, rfl⟩
    rw [xmlForFrame_objects _ _ _ _ _ _ _ _ hf]
    have e1 : ((trackKept tracks ++ standaloneKept locs).filter
        (fun x => x.frame == l.frame)).count l = 2 := by
      rw [List.count_filter (by simp)]
      exact hcnt
    have e2 := count_le_count_map
      (fun x : Localization =>
        ((((trackKept tracks ++ standaloneKept locs).map
            classEntry).reverse.lookup x.id).getD "Unknown",
          convertBBox x.x x.y x.width x.height W H))
      ((trackKept tracks ++ standaloneKept locs).filter
        (fun x => x.frame == l.frame)) l
    rw [e1] at e2
    exact e2

/-- With the download flag off, the frame-download loop returns the
computed paths, leaves the filesystem untouched and creates nothing. -/
theorem downloadFrames_no_download (media_name media_dir : String)
    (media_id : ℕ) (frames : List ℕ) (fs : List String) :
    downloadFrames media_name media_dir media_id frames fs false
      = (frames.map (framePath media_dir media_name), fs, []) := by
  induction frames with
  | nil => simp [downloadFrames]
  | cons f rest ih =>
    simp [downloadFrames, download_image, framePath, ih]

/-- Flag-off runs of the cell-23 loop keep the filesystem, create no
image file, and emit the same XML files as any flag-on run. -/
theorem runAll_flag_off (image_dir label_dir : String)
    (entries : List MediaEntry) :
    ∀ fs fs₂ : List String,
    (runAll image_dir label_dir entries fs false).1 = fs ∧
    (runAll image_dir label_dir entries fs false).2.1 = [] ∧
    (runAll image_dir label_dir entries fs false).2.2
      = (runAll image_dir label_dir entries fs₂ true).2.2 := by
  induction entries with
  | nil => intro fs fs₂; exact ⟨rfl, rfl, rfl⟩
  | cons e es ih =>
    intro fs fs₂
    have hr : runMedia image_dir label_dir e fs false
        = (fs, ([] : List String),
           mediaXMLs image_dir label_dir e.name e.width e.height
             e.loc_id_to_class e.localizations) := by
      unfold runMedia
      dsimp only
      rw [downloadFrames_no_download]
    obtain ⟨ha, hb, hc⟩ :=
      ih fs ((runMedia image_dir label_dir e fs₂ true).1)
    refine ⟨?_, ?_, ?_⟩
    · show (runAll image_dir label_dir (e :: es) fs false).1 = fs
      simp only [runAll, hr]
      exact ha
    · show (runAll image_dir label_dir (e :: es) fs false).2.1 = []
      simp only [runAll, hr]
      simpa using hb
    · show (runAll image_dir label_dir (e :: es) fs false).2.2
        = (runAll image_dir label_dir (e :: es) fs₂ true).2.2
      simp only [runAll, hr]
      rw [hc]
      rfl

/-- Claim C4: on the same collected data, a flag-false run leaves the
filesystem as it was and creates no image files, yet the pipeline's XML
output is identical to that of a flag-true run (started from any
filesystem): the XML content does not depend on the download flag. -/
theorem download_flag_hyperproperty (medias : List MediaInfo)
    (media_list : List String) (tracksOf : ℕ → List Track)
    (locsOf : ℕ → List Localization) (fs fs₂ : List String) :
    (pipeline medias media_list tracksOf locsOf fs false).map
        (fun r => r.2.2)
      = (pipeline medias media_list tracksOf locsOf fs₂ true).map
          (fun r => r.2.2) ∧
    (pipeline medias media_list tracksOf locsOf fs false).map
        (fun r => r.2.1)
      = (collectAll media_list tracksOf locsOf medias).map (fun _ => []) ∧
    (pipeline medias media_list tracksOf locsOf fs false).map
        (fun r => r.1)
      = (collectAll media_list tracksOf locsOf medias).map (fun _ => fs) := by
  unfold pipeline
  cases hcol : collectAll media_list tracksOf locsOf medias with
  | error e => exact ⟨rfl, rfl, rfl⟩
  | ok es =>
    obtain ⟨ha, hb, hc⟩ := runAll_flag_off IMAGE_DIR LABEL_DIR es fs fs₂
    exact ⟨by simp [Except.map, hc], by simp [Except.map, hb],
      by simp [Except.map, ha]⟩

/-- Requesting one extra name that no project media carries does not
change what the collector gathers. -/
theorem collectAll_extra_name (media_list : List String)
    (tracksOf : ℕ → List Track) (locsOf : ℕ → List Localization)
    (requested : String) :
    ∀ medias : List MediaInfo,
    requested ∉ medias.map (fun m => m.name) →
    collectAll (requested :: media_list) tracksOf locsOf medias
      = collectAll media_list tracksOf locsOf medias := by
  intro medias
  induction medias with
  | nil => intro _; rfl
  | cons m ms ih =>
    intro h
    rw [List.map_cons] at h
    have hne : m.name ≠ requested := by
      intro e
      subst e
      exact h (List.mem_cons_self _ _)
    have hms : requested ∉ ms.map (fun m => m.name) :=
      fun hm => h (List.mem_cons_of_mem _ hm)
    by_cases hm : m.name ∈ media_list
    · have hm2 : m.name ∈ requested :: media_list :=
        List.mem_cons_of_mem _ hm
      simp only [collectAll, if_pos hm, if_pos hm2]
      cases collectMedia (tracksOf m.id) (locsOf m.id) <;> simp [ih hms]
    · have hm2 : m.name ∉ requested :: media_list := by
        intro hmem
        rcases List.mem_cons.mp hmem with e | e
        · exact hne e
        · exact hm e
      simp only [collectAll, if_neg hm, if_neg hm2]
      exact ih hms

/-- Claim C7: a requested media name absent from the project is reported on
the console as not found, every media actually processed has a
different name, and the whole pipeline behaves exactly as if the name
had not been requested at all, so no image or XML file is produced for
it and the run is not aborted. -/
theorem missing_media_reported_and_skipped (medias : List MediaInfo)
    (media_list : List String) (requested : String)
    (tracksOf : ℕ → List Track) (locsOf : ℕ → List Localization)
    (fs : List String) (download : Bool)
    (hmiss : requested ∉ medias.map (fun m => m.name)) :
    mediaFoundMessage (medias.map (fun m => m.name)) requested
      = "This media WASN\x27T found: " ++ requested ∧
    (∀ m ∈ medias, m.name ≠ requested) ∧
    pipeline medias (requested :: media_list) tracksOf locsOf fs download
      = pipeline medias media_list tracksOf locsOf fs download := by
  refine ⟨?_, ?_, ?_⟩
  · unfold mediaFoundMessage
    rw [if_neg hmiss]
  · intro m hm e
    exact hmiss (List.mem_map.mpr ⟨m, hm, e⟩)
  · unfold pipeline
    rw [collectAll_extra_name media_list tracksOf locsOf requested medias hmiss]

/-- Two strings with the same character data are equal. -/
theorem str_eq_of_data {a b : String} (h : a.data = b.data) : a = b := by
  obtain ⟨da⟩ := a
  obtain ⟨db⟩ := b
  exact congrArg String.mk h

/-- Digit characters are neither a dot nor a slash. -/
theorem digitChar_ne_dot_slash (m : ℕ) :
    Nat.digitChar m ≠ '.' ∧ Nat.digitChar m ≠ '/' := by
  by_cases h : m < 16
  · interval_cases m <;> exact ⟨by decide, by decide⟩
  · have hstar : Nat.digitChar m = Char.ofNat 42 := by
      unfold Nat.digitChar
      repeat rw [if_neg (by omega)]
    rw [hstar]
    exact ⟨by decide, by decide⟩

/-- Characters produced by the decimal printer are neither dots nor
slashes (provided the accumulator has none). -/
theorem toDigitsCore_no_dot_slash (fuel : ℕ) :
    ∀ (n : ℕ) (acc : List Char), (∀ c ∈ acc, c ≠ '.' ∧ c ≠ '/') →
    ∀ c ∈ Nat.toDigitsCore 10 fuel n acc, c ≠ '.' ∧ c ≠ '/' := by
  induction fuel with
  | zero => intro n acc hacc; simpa [Nat.toDigitsCore] using hacc
  | succ fuel ih =>
    intro n acc hacc c hc
    unfold Nat.toDigitsCore at hc
    dsimp only at hc
    split at hc
    · rcases List.mem_cons.mp hc with rfl | h
      · exact digitChar_ne_dot_slash _
      · exact hacc c h
    · refine ih (n / 10) (Nat.digitChar (n % 10) :: acc) ?_ c hc
      intro c' hc'
      rcases List.mem_cons.mp hc' with rfl | h
      · exact digitChar_ne_dot_slash _
      · exact hacc c' h

/-- The characters of str(frame) are decimal digits: never a dot or a
slash. -/
theorem repr_no_dot_slash (n : ℕ) :
    ∀ c ∈ (Nat.repr n).data, c ≠ '.' ∧ c ≠ '/' := by
  intro c hc
  have h2 : c ∈ Nat.toDigits 10 n := by
    simpa [Nat.repr, List.asString] using hc
  exact toDigitsCore_no_dot_slash (n + 1) n [] (by simp) c
    (by simpa [Nat.toDigits] using h2)

/-- The characters kept by split(".")[0] contain no dot. -/
theorem splitDotHead_no_dot (s : String) :
    ∀ c ∈ (splitDotHead s).data, c ≠ '.' := by
  intro c hc
  have := List.mem_takeWhile_imp hc
  simpa using this

/-- split(".")[0] keeps only characters of the original string. -/
theorem splitDotHead_subset (s : String) :
    ∀ c ∈ (splitDotHead s).data, c ∈ s.data := by
  intro c hc
  exact List.takeWhile_subset _ hc

/-- Replacing colons by underscores does not introduce slashes. -/
theorem colonToUnderscore_no_slash (s : String)
    (h : ∀ c ∈ s.data, c ≠ '/') :
    ∀ c ∈ (colonToUnderscore s).data, c ≠ '/' := by
  intro c hc
  obtain ⟨c₀, hc₀, hmap⟩ := List.mem_map.mp hc
  by_cases he : c₀ = ':'
  · rw [← hmap]
    simp [he]
  · rw [← hmap]
    simp only [if_neg he]
    exact h c₀ hc₀

/-- Peeling the directory part off a path: the basename computation
keeps exactly the slash-free suffix. -/
theorem basename_data (t rest : List Char)
    (hrest : ∀ c ∈ rest, c ≠ '/') :
    ((t ++ '/' :: rest).reverse.takeWhile
      (fun c => decide (c ≠ '/'))).reverse = rest := by
  rw [List.append_cons, List.reverse_append]
  rw [List.takeWhile_append_of_pos
    (fun a ha => by simpa using hrest a (List.mem_reverse.mp ha))]
  have h2 : (t ++ ['/']).reverse = '/' :: t.reverse := by simp
  rw [h2, List.takeWhile_cons]
  simp

/-- str.replace(".jpg", ".xml") passes over a dot-free block. -/
theorem replaceJpgXml_append_no_dot (l m : List Char)
    (h : ∀ c ∈ l, c ≠ '.') :
    replaceJpgXml (l ++ m) = l ++ replaceJpgXml m := by
  induction l with
  | nil => rfl
  | cons c l ih =>
    rw [List.cons_append, replaceJpgXml]
    have hpre : (".jpg".data.isPrefixOf (c :: (l ++ m))) = false := by
      have hd : ".jpg".data = ['.', 'j', 'p', 'g'] := rfl
      rw [hd, List.isPrefixOf]
      have : ('.' == c) = false := by
        simp [Ne.symm (h c (List.mem_cons_self _ _))]
      rw [this]
      rfl
    rw [hpre]
    simp only [Bool.false_eq_true, if_false]
    rw [ih (fun a ha => h a (List.mem_cons_of_mem _ ha))]
    rfl

/-- The trailing ".jpg" itself is rewritten to ".xml". -/
theorem replaceJpgXml_jpg : replaceJpgXml ".jpg".data = ".xml".data := by
  have hd : ".jpg".data = ['.', 'j', 'p', 'g'] := rfl
  have hpre : (".jpg".data.isPrefixOf ['.', 'j', 'p', 'g']) = true := by
    decide
  rw [hd, replaceJpgXml, hpre]
  simp only [if_pos]
  have h0 : List.drop 3 ['j', 'p', 'g'] = ([] : List Char) := rfl
  rw [h0, replaceJpgXml]
  simp

/-- Image path and XML path recorded by the export loop for a
referenced frame: the image path of the bucket's first record, and the
XML path obtained from its basename by replacing ".jpg" with ".xml". -/
theorem xmlForFrame_paths (image_dir label_dir media_name : String)
    (W H : ℤ) (d : List (ℕ × String)) (locs : List Localization) (f : ℕ)
    (hf : f ∈ locs.map (fun l => l.frame)) :
    (xmlForFrame image_dir label_dir media_name W H d locs f).img_path
      = framePath image_dir media_name f ∧
    (xmlForFrame image_dir label_dir media_name W H d locs f).path
      = label_dir ++ replaceStrJpgXml
          (basename (framePath image_dir media_name f)) := by
  have hany : (locs.map (reshapeLoc image_dir media_name W H d)).any
      (fun r => r.frame == f) = true := by
    obtain ⟨l, hl, hfr⟩ := List.mem_map.mp hf
    refine List.any_eq_true.mpr
      ⟨reshapeLoc image_dir media_name W H d l,
        List.mem_map.mpr ⟨l, hl, rfl⟩, ?_⟩
    simp [reshapeLoc, hfr]
  obtain ⟨r, hr, hpr⟩ := List.any_eq_true.mp hany
  have hne : (locs.map (reshapeLoc image_dir media_name W H d)).filter
      (fun r => r.frame == f) ≠ [] :=
    List.ne_nil_of_mem (List.mem_filter.mpr ⟨hr, hpr⟩)
  unfold xmlForFrame
  rw [groupByFrame_lookup _ _ hany]
  simp only [Option.getD_some]
  unfold emitFrame
  dsimp only
  have hmem : ((locs.map (reshapeLoc image_dir media_name W H d)).filter
        (fun r => r.frame == f)).headD default
      ∈ (locs.map (reshapeLoc image_dir media_name W H d)).filter
        (fun r => r.frame == f) := by
    cases hcase : (locs.map (reshapeLoc image_dir media_name W H d)).filter
        (fun r => r.frame == f) with
    | nil => exact absurd hcase hne
    | cons a t => simp [List.headD]
  have hprop := List.mem_filter.mp hmem
  obtain ⟨l0, hl0, hre⟩ := List.mem_map.mp hprop.1
  have hfr : l0.frame = f := by
    have hb := hprop.2
    rw [← hre] at hb
    simpa [reshapeLoc] using hb
  constructor
  · rw [← hre]
    simp [reshapeLoc, hfr]
  · rw [← hre]
    simp [reshapeLoc, hfr]

/-- The produced image path lives under ROOT/JPEGImages/, its XML path
under ROOT/Annotations/, with the same basename and only the extension
differing (media names are assumed slash-free). -/
theorem framePath_xml_formulas (media_name : String) (frame : ℕ)
    (hname : ∀ c ∈ media_name.data, c ≠ '/') :
    framePath IMAGE_DIR (colonToUnderscore media_name) frame
      = ROOT ++ "JPEGImages/"
        ++ (splitDotHead (colonToUnderscore media_name) ++ "_"
            ++ Nat.repr frame) ++ ".jpg" ∧
    LABEL_DIR ++ replaceStrJpgXml (basename
        (framePath IMAGE_DIR (colonToUnderscore media_name) frame))
      = ROOT ++ "Annotations/"
        ++ (splitDotHead (colonToUnderscore media_name) ++ "_"
            ++ Nat.repr frame) ++ ".xml" := by
  have hrest_no_slash : ∀ c ∈ (splitDotHead
        (colonToUnderscore media_name)).data
        ++ '_' :: ((Nat.repr frame).data ++ ".jpg".data), c ≠ '/' := by
    intro c hc
    rcases List.mem_append.mp hc with h | h
    · exact colonToUnderscore_no_slash _ hname c (splitDotHead_subset _ c h)
    · rcases List.mem_cons.mp h with rfl | h
      · decide
      · rcases List.mem_append.mp h with h | h
        · exact (repr_no_dot_slash _ c h).2
        · have hj : c ∈ ['.', 'j', 'p', 'g'] := h
          fin_cases hj <;> decide
  have hdata : (framePath IMAGE_DIR (colonToUnderscore media_name)
        frame).data
      = "./Data/JPEGImages".data
        ++ '/' :: ((splitDotHead (colonToUnderscore media_name)).data
          ++ '_' :: ((Nat.repr frame).data ++ ".jpg".data)) := by
    simp only [framePath, String.data_append]
    rw [show IMAGE_DIR.data = "./Data/JPEGImages".data ++ ['/'] from rfl]
    simp [List.append_assoc]
  have hbase : (basename (framePath IMAGE_DIR
        (colonToUnderscore media_name) frame)).data
      = (splitDotHead (colonToUnderscore media_name)).data
        ++ '_' :: ((Nat.repr frame).data ++ ".jpg".data) := by
    show ((framePath IMAGE_DIR (colonToUnderscore media_name)
        frame).data.reverse.takeWhile (fun c => decide (c ≠ '/'))).reverse = _
    rw [hdata]
    exact basename_data _ _ hrest_no_slash
  have hpre_no_dot : ∀ c ∈ (splitDotHead
        (colonToUnderscore media_name)).data
        ++ '_' :: (Nat.repr frame).data, c ≠ '.' := by
    intro c hc
    rcases List.mem_append.mp hc with h | h
    · exact splitDotHead_no_dot _ c h
    · rcases List.mem_cons.mp h with rfl | h
      · decide
      · exact (repr_no_dot_slash _ c h).1
  have hxml : replaceJpgXml
        ((splitDotHead (colonToUnderscore media_name)).data
          ++ '_' :: ((Nat.repr frame).data ++ ".jpg".data))
      = (splitDotHead (colonToUnderscore media_name)).data
        ++ '_' :: ((Nat.repr frame).data ++ ".xml".data) := by
    rw [show (splitDotHead (colonToUnderscore media_name)).data
          ++ '_' :: ((Nat.repr frame).data ++ ".jpg".data)
        = ((splitDotHead (colonToUnderscore media_name)).data
          ++ '_' :: (Nat.repr frame).data) ++ ".jpg".data from by simp]
    rw [replaceJpgXml_append_no_dot _ _ hpre_no_dot, replaceJpgXml_jpg]
    simp
  constructor
  · apply str_eq_of_data
    simp only [framePath, String.data_append]
    rw [show IMAGE_DIR.data = ROOT.data ++ "JPEGImages/".data from rfl]
    simp [List.append_assoc]
  · apply str_eq_of_data
    simp only [String.data_append]
    rw [show (replaceStrJpgXml (basename (framePath IMAGE_DIR
        (colonToUnderscore media_name) frame))).data
      = replaceJpgXml ((basename (framePath IMAGE_DIR
          (colonToUnderscore media_name) frame)).data) from rfl]
    rw [hbase, hxml]
    rw [show LABEL_DIR.data = ROOT.data ++ "Annotations/".data from rfl]
    simp [List.append_assoc]

/-- Claim C8: the image for a frame goes to
ROOT/JPEGImages/(media_basename)_(frame).jpg and the XML emitted for
that frame goes to ROOT/Annotations/(media_basename)_(frame).xml: the
two paths share the basename and differ only in directory and
extension (media names contain no slash; the basename is the media name
with colons replaced and cut at the first dot). -/
theorem voc_pascal_layout (media_name : String) (frame : ℕ)
    (hname : ∀ c ∈ media_name.data, c ≠ '/') :
    framePath IMAGE_DIR (colonToUnderscore media_name) frame
      = ROOT ++ "JPEGImages/"
        ++ (splitDotHead (colonToUnderscore media_name) ++ "_"
            ++ Nat.repr frame) ++ ".jpg" ∧
    LABEL_DIR ++ replaceStrJpgXml (basename
        (framePath IMAGE_DIR (colonToUnderscore media_name) frame))
      = ROOT ++ "Annotations/"
        ++ (splitDotHead (colonToUnderscore media_name) ++ "_"
            ++ Nat.repr frame) ++ ".xml" ∧
    ∀ (W H : ℤ) (d : List (ℕ × String)) (locs : List Localization)
      (f : ℕ), f ∈ locs.map (fun l => l.frame) →
      (xmlForFrame IMAGE_DIR LABEL_DIR (colonToUnderscore media_name)
          W H d locs f).img_path
        = ROOT ++ "JPEGImages/"
          ++ (splitDotHead (colonToUnderscore media_name) ++ "_"
              ++ Nat.repr f) ++ ".jpg" ∧
      (xmlForFrame IMAGE_DIR LABEL_DIR (colonToUnderscore media_name)
          W H d locs f).path
        = ROOT ++ "Annotations/"
          ++ (splitDotHead (colonToUnderscore media_name) ++ "_"
              ++ Nat.repr f) ++ ".xml" := by
  obtain ⟨h1, h2⟩ := framePath_xml_formulas media_name frame hname
  refine ⟨h1, h2, ?_⟩
  intro W H d locs f hf
  obtain ⟨hi, hp⟩ := xmlForFrame_paths IMAGE_DIR LABEL_DIR
    (colonToUnderscore media_name) W H d locs f hf
  obtain ⟨g1, g2⟩ := framePath_xml_formulas media_name f hname
  exact ⟨hi.trans g1, hp.trans g2⟩

/-- Concrete instance of collector_keeps_amended. -/
theorem collector_keeps_amended_witness :
    (∀ l ∈ ([⟨[sampleTrackLoc]⟩] : List Track).flatMap
        (fun t => t.localizations),
      hasKey "ScientifcName" l = true → hasKey "ScientificName" l = true) ∧
    (collectMedia [⟨[sampleTrackLoc]⟩] [sampleStandalone] = .ok
      { loc_id_to_class :=
          ((trackKept [⟨[sampleTrackLoc]⟩]
              ++ standaloneKept [sampleStandalone]).map classEntry).reverse,
        media_localizations :=
          trackKept [⟨[sampleTrackLoc]⟩] ++ standaloneKept [sampleStandalone],
        all_classes :=
          (trackKept [⟨[sampleTrackLoc]⟩]
            ++ standaloneKept [sampleStandalone]).map classOf } ∧
    (∀ l ∈ trackKept [⟨[sampleTrackLoc]⟩] ++ standaloneKept [sampleStandalone],
      ((((trackKept [⟨[sampleTrackLoc]⟩]
          ++ standaloneKept [sampleStandalone]).map classEntry).reverse).lookup
        l.id).isSome = true) ∧
    (((trackKept [⟨[sampleTrackLoc]⟩]
        ++ standaloneKept [sampleStandalone]).map (·.id)).Nodup →
      ∀ l ∈ trackKept [⟨[sampleTrackLoc]⟩] ++ standaloneKept [sampleStandalone],
        ((((trackKept [⟨[sampleTrackLoc]⟩]
            ++ standaloneKept [sampleStandalone]).map classEntry).reverse).lookup
          l.id) = some (classOf l))) :=
  ⟨by decide, collector_keeps_amended [⟨[sampleTrackLoc]⟩] [sampleStandalone]
    (by decide)⟩

/-- Concrete instance of missing_class_defaults_unknown. -/
theorem missing_class_defaults_unknown_witness :
    sampleStandalone ∈ [sampleStandalone] ∧
    (([] : List (ℕ × String)).lookup sampleStandalone.id = none) ∧
    ((reshapeLoc "img/" "a.mov" 10 10 [] sampleStandalone).class_category
        = "Unknown" ∧
      ("Unknown", convertBBox 0 0 0 0 10 10) ∈
        (xmlForFrame "img/" "lbl/" "a.mov" 10 10 [] [sampleStandalone]
          7).objects) :=
  ⟨by decide, rfl, missing_class_defaults_unknown "img/" "lbl/" "a.mov" 10 10
    [] [sampleStandalone] sampleStandalone (by decide) rfl⟩

/-- Concrete instance of one_xml_per_frame. -/
theorem one_xml_per_frame_witness :
    (7 ∈ ([sampleStandalone] : List Localization).map (fun l => l.frame)) ∧
    ((framesWithLocalizations [sampleStandalone]).count 7 = 1 ∧
      mediaXMLs "img/" "lbl/" "a.mov" 10 10 [] [sampleStandalone]
        = (framesWithLocalizations [sampleStandalone]).map
            (xmlForFrame "img/" "lbl/" "a.mov" 10 10 [] [sampleStandalone]) ∧
      (xmlForFrame "img/" "lbl/" "a.mov" 10 10 [] [sampleStandalone]
          7).objects
        = (([sampleStandalone] : List Localization).filter
            (fun l => l.frame == 7)).map
            (fun l => ((([] : List (ℕ × String)).lookup l.id).getD "Unknown",
              convertBBox l.x l.y l.width l.height 10 10))) :=
  ⟨by decide, one_xml_per_frame "img/" "lbl/" "a.mov" 10 10 []
    [sampleStandalone] 7 (by decide)⟩

/-- Concrete instance of missing_media_reported_and_skipped. -/
theorem missing_media_reported_and_skipped_witness :
    ("A.mov" ∉ ([⟨"B.mov", 5, 10, 10⟩] : List MediaInfo).map
        (fun m => m.name)) ∧
    (mediaFoundMessage (([⟨"B.mov", 5, 10, 10⟩] : List MediaInfo).map
          (fun m => m.name)) "A.mov"
        = "This media WASN\x27T found: " ++ "A.mov" ∧
      (∀ m ∈ ([⟨"B.mov", 5, 10, 10⟩] : List MediaInfo), m.name ≠ "A.mov") ∧
      pipeline [⟨"B.mov", 5, 10, 10⟩] ("A.mov" :: []) (fun _ => [])
          (fun _ => []) [] false
        = pipeline [⟨"B.mov", 5, 10, 10⟩] [] (fun _ => []) (fun _ => [])
            [] false) :=
  ⟨by decide, missing_media_reported_and_skipped [⟨"B.mov", 5, 10, 10⟩] []
    "A.mov" (fun _ => []) (fun _ => []) [] false (by decide)⟩

/-- Concrete instance of voc_pascal_layout. -/
theorem voc_pascal_layout_witness :
    (∀ c ∈ ("v:1.mov" : String).data, c ≠ '/') ∧
    (framePath IMAGE_DIR (colonToUnderscore "v:1.mov") 12
      = ROOT ++ "JPEGImages/"
        ++ (splitDotHead (colonToUnderscore "v:1.mov") ++ "_"
            ++ Nat.repr 12) ++ ".jpg" ∧
    LABEL_DIR ++ replaceStrJpgXml (basename
        (framePath IMAGE_DIR (colonToUnderscore "v:1.mov") 12))
      = ROOT ++ "Annotations/"
        ++ (splitDotHead (colonToUnderscore "v:1.mov") ++ "_"
            ++ Nat.repr 12) ++ ".xml" ∧
    ∀ (W H : ℤ) (d : List (ℕ × String)) (locs : List Localization)
      (f : ℕ), f ∈ locs.map (fun l => l.frame) →
      (xmlForFrame IMAGE_DIR LABEL_DIR (colonToUnderscore "v:1.mov")
          W H d locs f).img_path
        = ROOT ++ "JPEGImages/"
          ++ (splitDotHead (colonToUnderscore "v:1.mov") ++ "_"
              ++ Nat.repr f) ++ ".jpg" ∧
      (xmlForFrame IMAGE_DIR LABEL_DIR (colonToUnderscore "v:1.mov")
          W H d locs f).path
        = ROOT ++ "Annotations/"
          ++ (splitDotHead (colonToUnderscore "v:1.mov") ++ "_"
              ++ Nat.repr f) ++ ".xml") :=
  ⟨by decide, voc_pascal_layout "v:1.mov" 12 (by decide)⟩

/-- Concrete instance of duplicated_track_and_standalone. -/
theorem duplicated_track_and_standalone_witness :
    (∀ l' ∈ ([⟨[sampleTrackLoc]⟩] : List Track).flatMap
        (fun t => t.localizations),
      hasKey "ScientifcName" l' = true → hasKey "ScientificName" l' = true) ∧
    (([⟨[sampleTrackLoc]⟩] : List Track).flatMap
        (fun t => t.localizations)).count sampleTrackLoc = 1 ∧
    ([sampleTrackLoc] : List Localization).count sampleTrackLoc = 1 ∧
    hasKey "ScientifcName" sampleTrackLoc = true ∧
    hasKey "ScientificName" sampleTrackLoc = true ∧
    (∃ st : CollectSt, collectMedia [⟨[sampleTrackLoc]⟩] [sampleTrackLoc]
        = .ok st ∧
      st.media_localizations.count sampleTrackLoc = 2 ∧
      ∀ image_dir label_dir media_name W H,
        2 ≤ ((xmlForFrame image_dir label_dir media_name W H
            st.loc_id_to_class st.media_localizations
            sampleTrackLoc.frame).objects.count
          ((st.loc_id_to_class.lookup sampleTrackLoc.id).getD "Unknown",
            convertBBox sampleTrackLoc.x sampleTrackLoc.y
              sampleTrackLoc.width sampleTrackLoc.height W H))) :=
  ⟨by decide, by decide, by decide, by decide, by decide,
    duplicated_track_and_standalone [⟨[sampleTrackLoc]⟩] [sampleTrackLoc]
      sampleTrackLoc (by decide) (by decide) (by decide) (by decide)
      (by decide)⟩

/-- Concrete instance of standalone_no_unknown_fallback. -/
theorem standalone_no_unknown_fallback_witness :
    collectMedia [] [sampleStandalone]
        = .ok ⟨[(1, "Fish")], [sampleStandalone], ["Fish"]⟩ ∧
    sampleStandalone ∈ [sampleStandalone] ∧
    hasKey "ScientificName" sampleStandalone = true ∧
    (((([(1, "Fish")] : List (ℕ × String))).lookup
        sampleStandalone.id).isSome = true ∧
      ∃ c, ([(1, "Fish")] : List (ℕ × String)).lookup sampleStandalone.id
          = some c ∧
        ∀ image_dir media_name W H,
          (reshapeLoc image_dir media_name W H [(1, "Fish")]
            sampleStandalone).class_category = c) :=
  ⟨rfl, by decide, by decide,
    standalone_no_unknown_fallback [] [sampleStandalone]
      ⟨[(1, "Fish")], [sampleStandalone], ["Fish"]⟩ sampleStandalone
      rfl (by decide) (by decide)⟩

end Tator
